import Mathlib

/-!
Verification of the ViralDeals pricing algorithm (`pricing_algorithm.py`).

The pricing engine is a pure numeric pipeline: tier lookup, markup
adjustment, itemized cost accrual, psychological rounding, margin
derivation, plus a bulk wrapper.  Python floats are modelled by exact
rationals (ℚ); `math.floor` is `Int.floor`, and the Python `%` on
integers with a positive modulus is `Int.emod`.
-/

namespace ViralDeals

/-- Enumeration `ProductCategory` from the source. -/
inductive ProductCategory where
  | electronics
  | fashion
  | home_kitchen
  | beauty
  | sports
  | books
  | toys
  | generic
deriving DecidableEq, Repr

/-- Enumeration `CompetitionLevel` from the source. -/
inductive CompetitionLevel where
  | low
  | medium
  | high
  | very_high
deriving DecidableEq, Repr

/-- Dataclass `CostFactors`: the five configurable cost rates. -/
structure CostFactors where
  payment_gateway_fee : ℚ
  platform_fee : ℚ
  packaging_cost : ℚ
  returns_buffer : ℚ
  gst_rate : ℚ
deriving DecidableEq, Repr

/-- The default `CostFactors()` instance (2%, 3%, ₹10, 3%, 18%). -/
def CostFactors.default : CostFactors :=
  { payment_gateway_fee := 2/100
    platform_fee := 3/100
    packaging_cost := 10
    returns_buffer := 3/100
    gst_rate := 18/100 }

/-- Dataclass `PricingResult`.  The `cost_breakdown` dict is modelled as an
association list in insertion order. -/
structure PricingResult where
  supplier_price : ℚ
  base_markup_percent : ℚ
  adjusted_markup_percent : ℚ
  selling_price : ℚ
  final_price : ℚ
  profit_margin : ℚ
  cost_breakdown : List (String × ℚ)
deriving DecidableEq, Repr

/-- Table `BASE_MARKUP_TIERS`: (min, max, markup) rows; `none` stands for the
infinite upper bound of the last row. -/
def BASE_MARKUP_TIERS : List (ℚ × Option ℚ × ℚ) :=
  [(100, some 299, 60/100),
   (300, some 699, 45/100),
   (700, some 1199, 35/100),
   (1200, some 2000, 25/100),
   (2001, none, 20/100)]

/-- Loop condition `min_price <= supplier_price <= max_price` of
`get_base_markup`; a finite price is always below the infinite bound. -/
def tierMatches (supplier_price : ℚ) (t : ℚ × Option ℚ × ℚ) : Bool :=
  decide (t.1 ≤ supplier_price) &&
    (match t.2.1 with
     | some hi => decide (supplier_price ≤ hi)
     | none => true)

/-- Source function `get_base_markup`: first tier whose band contains the price wins;
otherwise the fallbacks (0.70 below 100, else 0.15). -/
def get_base_markup (supplier_price : ℚ) : ℚ :=
  match BASE_MARKUP_TIERS.find? (tierMatches supplier_price) with
  | some t => t.2.2
  | none => if supplier_price < 100 then 70/100 else 15/100

/-- Lookup table `CATEGORY_ADJUSTMENTS`. -/
def CATEGORY_ADJUSTMENTS : ProductCategory → ℚ
  | .electronics => 85/100
  | .fashion => 115/100
  | .home_kitchen => 1
  | .beauty => 120/100
  | .sports => 90/100
  | .books => 70/100
  | .toys => 110/100
  | .generic => 1

/-- Lookup table `COMPETITION_ADJUSTMENTS`. -/
def COMPETITION_ADJUSTMENTS : CompetitionLevel → ℚ
  | .low => 120/100
  | .medium => 1
  | .high => 85/100
  | .very_high => 70/100

/-- Source function `calculate_adjusted_markup`: multiply by the category and competition
multipliers, optionally by the 1.15 unique-value bonus, then clamp to the
0.15 floor. -/
def calculate_adjusted_markup (base_markup : ℚ) (category : ProductCategory)
    (competition : CompetitionLevel) (has_unique_value : Bool) : ℚ :=
  let m1 := base_markup * CATEGORY_ADJUSTMENTS category
  let m2 := m1 * COMPETITION_ADJUSTMENTS competition
  let m3 := if has_unique_value then m2 * (115/100) else m2
  max m3 (15/100)

/-- Source function `calculate_total_costs`: the five-entry cost dict, in insertion order. -/
def calculate_total_costs (cf : CostFactors) (supplier_price selling_price : ℚ) :
    List (String × ℚ) :=
  [("payment_gateway", selling_price * cf.payment_gateway_fee),
   ("platform_fee", selling_price * cf.platform_fee),
   ("packaging", cf.packaging_cost),
   ("returns_buffer", selling_price * cf.returns_buffer),
   ("gst", selling_price * cf.gst_rate)]

/-- Source function `apply_psychological_pricing`: band-specific rounding to 9 / 99 /
999-or-499 endings. -/
def apply_psychological_pricing (price : ℚ) : ℚ :=
  if price < 100 then
    ((⌊price / 10⌋ : ℤ) : ℚ) * 10 + 9
  else if price < 1000 then
    ((⌊price / 100⌋ : ℤ) : ℚ) * 100 + 99
  else if ⌊price / 100⌋ % 10 < 5 then
    ((⌊price / 100⌋ : ℤ) : ℚ) * 100 - 1
  else
    ((⌊price / 100⌋ - ⌊price / 100⌋ % 10 + 4 : ℤ) : ℚ) * 100 + 99

/-- Source function `calculate_price`: the main pipeline (steps 1-7 of the source). -/
def calculate_price (cf : CostFactors) (supplier_price : ℚ)
    (category : ProductCategory) (competition : CompetitionLevel)
    (has_unique_value : Bool) (apply_psychological : Bool) : PricingResult :=
  let base_markup := get_base_markup supplier_price
  let adjusted_markup :=
    calculate_adjusted_markup base_markup category competition has_unique_value
  let selling_price := supplier_price * (1 + adjusted_markup)
  let cost_breakdown := calculate_total_costs cf supplier_price selling_price
  let total_additional_costs := (cost_breakdown.map Prod.snd).sum
  let adjusted_selling_price := selling_price + total_additional_costs
  let final_price :=
    if apply_psychological then apply_psychological_pricing adjusted_selling_price
    else adjusted_selling_price
  let profit := final_price - supplier_price - total_additional_costs
  let profit_margin := if final_price > 0 then (profit / final_price) * 100 else 0
  { supplier_price := supplier_price
    base_markup_percent := base_markup * 100
    adjusted_markup_percent := adjusted_markup * 100
    selling_price := selling_price
    final_price := final_price
    profit_margin := profit_margin
    cost_breakdown := cost_breakdown }

/-- A loosely-typed product descriptor handed to `bulk_calculate`; optional
fields model the dict keys that `product.get` defaults. -/
structure Product where
  supplier_price : ℚ
  category : Option String
  competition : Option String
  has_unique_value : Option Bool
deriving DecidableEq, Repr

/-- Resolution of a category string, as the `ProductCategory(value)` enum call
does; an unknown string raises in
Python, modelled as `none`. -/
def ProductCategory.fromString? : String → Option ProductCategory
  | "electronics" => some .electronics
  | "fashion" => some .fashion
  | "home_kitchen" => some .home_kitchen
  | "beauty" => some .beauty
  | "sports" => some .sports
  | "books" => some .books
  | "toys" => some .toys
  | "generic" => some .generic
  | _ => none

/-- Resolution of a competition string, as the `CompetitionLevel(value)` enum
call does. -/
def CompetitionLevel.fromString? : String → Option CompetitionLevel
  | "low" => some .low
  | "medium" => some .medium
  | "high" => some .high
  | "very_high" => some .very_high
  | _ => none

/-- Source function `bulk_calculate`: one `calculate_price` call per descriptor, in order;
a failed enum resolution aborts the whole call (`none`). -/
def bulk_calculate (cf : CostFactors) : List Product → Option (List PricingResult)
  | [] => some []
  | p :: rest => do
    let cat ← ProductCategory.fromString? (p.category.getD "generic")
    let comp ← CompetitionLevel.fromString? (p.competition.getD "medium")
    let r := calculate_price cf p.supplier_price cat comp
      (p.has_unique_value.getD false) true
    let rs ← bulk_calculate cf rest
    pure (r :: rs)

/-! ### Helper lemmas -/

lemma get_base_markup_band1 {p : ℚ} (h1 : 100 ≤ p) (h2 : p ≤ 299) :
    get_base_markup p = 60/100 := by
  unfold get_base_markup BASE_MARKUP_TIERS
  rw [List.find?_cons_of_pos _ (by simp [tierMatches]; exact ⟨h1, h2⟩)]

lemma get_base_markup_band2 {p : ℚ} (h1 : 300 ≤ p) (h2 : p ≤ 699) :
    get_base_markup p = 45/100 := by
  unfold get_base_markup BASE_MARKUP_TIERS
  rw [List.find?_cons_of_neg _ (by simp [tierMatches]; intro _; linarith),
      List.find?_cons_of_pos _ (by simp [tierMatches]; exact ⟨h1, h2⟩)]

lemma get_base_markup_band3 {p : ℚ} (h1 : 700 ≤ p) (h2 : p ≤ 1199) :
    get_base_markup p = 35/100 := by
  unfold get_base_markup BASE_MARKUP_TIERS
  rw [List.find?_cons_of_neg _ (by simp [tierMatches]; intro _; linarith),
      List.find?_cons_of_neg _ (by simp [tierMatches]; intro _; linarith),
      List.find?_cons_of_pos _ (by simp [tierMatches]; exact ⟨h1, h2⟩)]

lemma get_base_markup_band4 {p : ℚ} (h1 : 1200 ≤ p) (h2 : p ≤ 2000) :
    get_base_markup p = 25/100 := by
  unfold get_base_markup BASE_MARKUP_TIERS
  rw [List.find?_cons_of_neg _ (by simp [tierMatches]; intro _; linarith),
      List.find?_cons_of_neg _ (by simp [tierMatches]; intro _; linarith),
      List.find?_cons_of_neg _ (by simp [tierMatches]; intro _; linarith),
      List.find?_cons_of_pos _ (by simp [tierMatches]; exact ⟨h1, h2⟩)]

lemma get_base_markup_band5 {p : ℚ} (h1 : 2001 ≤ p) :
    get_base_markup p = 20/100 := by
  unfold get_base_markup BASE_MARKUP_TIERS
  rw [List.find?_cons_of_neg _ (by simp [tierMatches]; intro _; linarith),
      List.find?_cons_of_neg _ (by simp [tierMatches]; intro _; linarith),
      List.find?_cons_of_neg _ (by simp [tierMatches]; intro _; linarith),
      List.find?_cons_of_neg _ (by simp [tierMatches]; intro _; linarith),
      List.find?_cons_of_pos _ (by simp [tierMatches]; linarith)]

lemma get_base_markup_low {p : ℚ} (h1 : p < 100) :
    get_base_markup p = 70/100 := by
  unfold get_base_markup BASE_MARKUP_TIERS
  rw [List.find?_cons_of_neg _ (by simp [tierMatches]; intro h; linarith),
      List.find?_cons_of_neg _ (by simp [tierMatches]; intro h; linarith),
      List.find?_cons_of_neg _ (by simp [tierMatches]; intro h; linarith),
      List.find?_cons_of_neg _ (by simp [tierMatches]; intro h; linarith),
      List.find?_cons_of_neg _ (by simp [tierMatches]; linarith)]
  simp [List.find?]
  intro h; linarith

end ViralDeals

namespace ViralDeals

/-! ### Claim theorems -/

/-- C1: `get_base_markup` returns the markup of the first inclusive band
containing the price — [100,299] ↦ 0.60, [300,699] ↦ 0.45,
[700,1199] ↦ 0.35, [1200,2000] ↦ 0.25, [2001,∞) ↦ 0.20 — and any price
below 100 gets the 0.70 fallback. -/
theorem get_base_markup_band_spec (p : ℚ) :
    (100 ≤ p → p ≤ 299 → get_base_markup p = 60/100) ∧
    (300 ≤ p → p ≤ 699 → get_base_markup p = 45/100) ∧
    (700 ≤ p → p ≤ 1199 → get_base_markup p = 35/100) ∧
    (1200 ≤ p → p ≤ 2000 → get_base_markup p = 25/100) ∧
    (2001 ≤ p → get_base_markup p = 20/100) ∧
    (p < 100 → get_base_markup p = 70/100) :=
  ⟨fun h1 h2 => get_base_markup_band1 h1 h2,
   fun h1 h2 => get_base_markup_band2 h1 h2,
   fun h1 h2 => get_base_markup_band3 h1 h2,
   fun h1 h2 => get_base_markup_band4 h1 h2,
   fun h1 => get_base_markup_band5 h1,
   fun h1 => get_base_markup_low h1⟩

/-- Witness for C1: each band hypothesis discharged at a concrete price. -/
theorem get_base_markup_band_spec_witness :
    get_base_markup 150 = 60/100 ∧ get_base_markup 350 = 45/100 ∧
    get_base_markup 800 = 35/100 ∧ get_base_markup 1600 = 25/100 ∧
    get_base_markup 2500 = 20/100 ∧ get_base_markup 85 = 70/100 :=
  ⟨(get_base_markup_band_spec 150).1 (by norm_num) (by norm_num),
   (get_base_markup_band_spec 350).2.1 (by norm_num) (by norm_num),
   (get_base_markup_band_spec 800).2.2.1 (by norm_num) (by norm_num),
   (get_base_markup_band_spec 1600).2.2.2.1 (by norm_num) (by norm_num),
   (get_base_markup_band_spec 2500).2.2.2.2.1 (by norm_num),
   (get_base_markup_band_spec 85).2.2.2.2.2 (by norm_num)⟩

/-- C2: `apply_psychological_pricing` follows the band rules exactly:
below 100 it is `⌊p/10⌋*10 + 9`; in [100,1000) it is `⌊p/100⌋*100 + 99`;
at 1000 and above, with `h = ⌊p/100⌋`, it is `h*100 - 1` when
`h % 10 < 5` and `(h - h % 10 + 4)*100 + 99` otherwise. -/
theorem apply_psychological_pricing_band_spec (p : ℚ) :
    (p < 100 → apply_psychological_pricing p = ((⌊p / 10⌋ : ℤ) : ℚ) * 10 + 9) ∧
    (100 ≤ p → p < 1000 →
      apply_psychological_pricing p = ((⌊p / 100⌋ : ℤ) : ℚ) * 100 + 99) ∧
    (1000 ≤ p → ⌊p / 100⌋ % 10 < 5 →
      apply_psychological_pricing p = ((⌊p / 100⌋ : ℤ) : ℚ) * 100 - 1) ∧
    (1000 ≤ p → ¬(⌊p / 100⌋ % 10 < 5) →
      apply_psychological_pricing p =
        ((⌊p / 100⌋ - ⌊p / 100⌋ % 10 + 4 : ℤ) : ℚ) * 100 + 99) := by
  refine ⟨fun h1 => ?_, fun h1 h2 => ?_, fun h1 h2 => ?_, fun h1 h2 => ?_⟩ <;>
    · unfold apply_psychological_pricing
      split_ifs <;> first | rfl | linarith

/-- Witness for C2: all four branches at concrete prices
(85 ↦ 89, 750 ↦ 799, 2000 ↦ 1999 since ⌊2000/100⌋ % 10 = 0 < 5,
1520 ↦ 1499 since ⌊1520/100⌋ % 10 = 5). -/
theorem apply_psychological_pricing_band_spec_witness :
    apply_psychological_pricing 85 = 89 ∧
    apply_psychological_pricing 750 = 799 ∧
    apply_psychological_pricing 2000 = 1999 ∧
    apply_psychological_pricing 1520 = 1499 := by
  refine ⟨?_, ?_, ?_, ?_⟩
  · rw [(apply_psychological_pricing_band_spec 85).1 (by norm_num)]; norm_num
  · rw [(apply_psychological_pricing_band_spec 750).2.1 (by norm_num) (by norm_num)]
    norm_num
  · rw [(apply_psychological_pricing_band_spec 2000).2.2.1 (by norm_num) (by norm_num)]
    norm_num
  · rw [(apply_psychological_pricing_band_spec 1520).2.2.2 (by norm_num) (by norm_num)]
    norm_num

/-- C3: adjusted markup is
`max (base * category_mult * competition_mult * uniqueness_mult) 0.15`,
hence never below 0.15, and the `adjusted_markup_percent` reported by
`calculate_price` is never below 15.  The floor is applied after all
multiplications. -/
theorem calculate_adjusted_markup_spec (b : ℚ) (cat : ProductCategory)
    (comp : CompetitionLevel) (u : Bool) (cf : CostFactors) (sp : ℚ)
    (psych : Bool) :
    calculate_adjusted_markup b cat comp u =
      max (b * CATEGORY_ADJUSTMENTS cat * COMPETITION_ADJUSTMENTS comp *
        (if u then 115/100 else 1)) (15/100) ∧
    15/100 ≤ calculate_adjusted_markup b cat comp u ∧
    15 ≤ (calculate_price cf sp cat comp u psych).adjusted_markup_percent := by
  refine ⟨?_, le_max_right _ _, ?_⟩
  · cases u <;> simp [calculate_adjusted_markup]
  · have h : (15:ℚ)/100 ≤
        calculate_adjusted_markup (get_base_markup sp) cat comp u :=
      le_max_right _ _
    simp only [calculate_price]
    linarith

/-- C4: the cost breakdown handed back by `calculate_price` is exactly the
five named components, each computed off the pre-cost selling price with
packaging fixed, and with psychological rounding disabled the final price
is the selling price plus the sum of those five entries exactly. -/
theorem calculate_price_cost_breakdown_spec (cf : CostFactors) (sp : ℚ)
    (cat : ProductCategory) (comp : CompetitionLevel) (u : Bool)
    (psych : Bool) :
    (calculate_price cf sp cat comp u psych).cost_breakdown =
      [("payment_gateway",
          (calculate_price cf sp cat comp u psych).selling_price *
            cf.payment_gateway_fee),
       ("platform_fee",
          (calculate_price cf sp cat comp u psych).selling_price *
            cf.platform_fee),
       ("packaging", cf.packaging_cost),
       ("returns_buffer",
          (calculate_price cf sp cat comp u psych).selling_price *
            cf.returns_buffer),
       ("gst",
          (calculate_price cf sp cat comp u psych).selling_price *
            cf.gst_rate)] ∧
    (calculate_price cf sp cat comp u false).final_price =
      (calculate_price cf sp cat comp u false).selling_price +
        ((calculate_price cf sp cat comp u false).cost_breakdown.map
          Prod.snd).sum :=
  ⟨rfl, rfl⟩

/-- C7: the profit margin is `100 * (final - supplier - total_costs) / final`
whenever the final price is positive, and 0 whenever it is nonpositive, so
no division by zero can arise in this step. -/
theorem calculate_price_profit_margin_spec (cf : CostFactors) (sp : ℚ)
    (cat : ProductCategory) (comp : CompetitionLevel) (u : Bool)
    (psych : Bool) :
    (0 < (calculate_price cf sp cat comp u psych).final_price →
      (calculate_price cf sp cat comp u psych).profit_margin =
        100 * ((calculate_price cf sp cat comp u psych).final_price - sp -
          ((calculate_price cf sp cat comp u psych).cost_breakdown.map
            Prod.snd).sum) /
          (calculate_price cf sp cat comp u psych).final_price) ∧
    ((calculate_price cf sp cat comp u psych).final_price ≤ 0 →
      (calculate_price cf sp cat comp u psych).profit_margin = 0) := by
  constructor
  · intro h
    simp only [calculate_price] at h ⊢
    rw [if_pos h]
    ring
  · intro h
    simp only [calculate_price] at h ⊢
    rw [if_neg (not_lt.mpr h)]

/-- Witness for C7: both branches at concrete inputs — supplier price 150
with rounding off gives a positive final price of 312.4 and margin
100·90/312.4; supplier price −1000 gives final price −2132 ≤ 0 and
margin 0. -/
theorem calculate_price_profit_margin_spec_witness :
    (0 < (calculate_price CostFactors.default 150 ProductCategory.generic
        CompetitionLevel.medium false false).final_price ∧
      (calculate_price CostFactors.default 150 ProductCategory.generic
        CompetitionLevel.medium false false).profit_margin =
        100 * ((calculate_price CostFactors.default 150 ProductCategory.generic
          CompetitionLevel.medium false false).final_price - 150 -
          ((calculate_price CostFactors.default 150 ProductCategory.generic
            CompetitionLevel.medium false false).cost_breakdown.map
              Prod.snd).sum) /
          (calculate_price CostFactors.default 150 ProductCategory.generic
            CompetitionLevel.medium false false).final_price) ∧
    ((calculate_price CostFactors.default (-1000) ProductCategory.generic
        CompetitionLevel.medium false false).final_price ≤ 0 ∧
      (calculate_price CostFactors.default (-1000) ProductCategory.generic
        CompetitionLevel.medium false false).profit_margin = 0) := by
  have hpos : 0 < (calculate_price CostFactors.default 150
      ProductCategory.generic CompetitionLevel.medium false false).final_price := by
    norm_num [calculate_price, CostFactors.default, calculate_adjusted_markup,
      get_base_markup, BASE_MARKUP_TIERS, tierMatches, List.find?,
      calculate_total_costs, CATEGORY_ADJUSTMENTS, COMPETITION_ADJUSTMENTS]
  have hneg : (calculate_price CostFactors.default (-1000)
      ProductCategory.generic CompetitionLevel.medium false false).final_price ≤ 0 := by
    norm_num [calculate_price, CostFactors.default, calculate_adjusted_markup,
      get_base_markup, BASE_MARKUP_TIERS, tierMatches, List.find?,
      calculate_total_costs, CATEGORY_ADJUSTMENTS, COMPETITION_ADJUSTMENTS]
  exact ⟨⟨hpos, (calculate_price_profit_margin_spec CostFactors.default 150
      ProductCategory.generic CompetitionLevel.medium false false).1 hpos⟩,
    ⟨hneg, (calculate_price_profit_margin_spec CostFactors.default (-1000)
      ProductCategory.generic CompetitionLevel.medium false false).2 hneg⟩⟩

/-- Every raw price in `[1000, 1100)` rounds to 999: the hundreds count is
10, whose last digit 0 is below 5, so the first `≥ 1000` formula applies. -/
lemma apply_psychological_pricing_eq_999 {p : ℚ} (h1 : 1000 ≤ p)
    (h2 : p < 1100) : apply_psychological_pricing p = 999 := by
  have hfl : ⌊p / 100⌋ = 10 := by
    rw [Int.floor_eq_iff]
    constructor
    · push_cast
      rw [le_div_iff₀ (by norm_num : (0:ℚ) < 100)]
      linarith
    · push_cast
      rw [div_lt_iff₀ (by norm_num : (0:ℚ) < 100)]
      linarith
  unfold apply_psychological_pricing
  rw [hfl, if_neg (not_lt.mpr (by linarith : (100:ℚ) ≤ p)),
    if_neg (not_lt.mpr (by linarith : (1000:ℚ) ≤ p)),
    if_pos (by norm_num : (10:ℤ) % 10 < 5)]
  norm_num

/-- C5 counterexample: psychological rounding is not idempotent — the raw
price 1100 rounds to 1099, but rounding 1099 again gives 999. -/
theorem apply_psychological_pricing_not_idempotent :
    ¬ (apply_psychological_pricing (apply_psychological_pricing 1100) =
        apply_psychological_pricing 1100) := by
  have h1 : apply_psychological_pricing 1100 = 1099 := by
    norm_num [apply_psychological_pricing]
  rw [h1]
  norm_num [apply_psychological_pricing]

/-- C5 amended: psychological rounding is idempotent on every price below
1100 (for prices of 1100 and above a second application moves the price
down again, as the counterexample at 1100 shows). -/
theorem apply_psychological_pricing_idem_below (p : ℚ) (h : p < 1100) :
    apply_psychological_pricing (apply_psychological_pricing p) =
      apply_psychological_pricing p := by
  rcases lt_or_le p 100 with h1 | h1
  · have hfp : apply_psychological_pricing p =
        ((⌊p / 10⌋ : ℤ) : ℚ) * 10 + 9 := by
      unfold apply_psychological_pricing
      rw [if_pos h1]
    have hm : ⌊p / 10⌋ < 10 := by
      refine Int.floor_lt.mpr ?_
      rw [div_lt_iff₀ (by norm_num : (0:ℚ) < 10)]
      push_cast
      linarith
    have hm9 : ((⌊p / 10⌋ : ℤ) : ℚ) ≤ 9 := by
      exact_mod_cast Int.lt_add_one_iff.mp hm
    rw [hfp]
    unfold apply_psychological_pricing
    rw [if_pos (by linarith : ((⌊p / 10⌋ : ℤ) : ℚ) * 10 + 9 < 100),
      show (((⌊p / 10⌋ : ℤ) : ℚ) * 10 + 9) / 10 =
        ((⌊p / 10⌋ : ℤ) : ℚ) + 9 / 10 by ring,
      Int.floor_int_add, show ⌊(9/10 : ℚ)⌋ = 0 by norm_num, add_zero]
  · rcases lt_or_le p 1000 with h2 | h2
    · have hfp : apply_psychological_pricing p =
          ((⌊p / 100⌋ : ℤ) : ℚ) * 100 + 99 := by
        unfold apply_psychological_pricing
        rw [if_neg (not_lt.mpr h1), if_pos h2]
      have hm1 : 1 ≤ ⌊p / 100⌋ := by
        refine Int.le_floor.mpr ?_
        rw [le_div_iff₀ (by norm_num : (0:ℚ) < 100)]
        push_cast
        linarith
      have hm10 : ⌊p / 100⌋ < 10 := by
        refine Int.floor_lt.mpr ?_
        rw [div_lt_iff₀ (by norm_num : (0:ℚ) < 100)]
        push_cast
        linarith
      have hc1 : (1:ℚ) ≤ ((⌊p / 100⌋ : ℤ) : ℚ) := by exact_mod_cast hm1
      have hc9 : ((⌊p / 100⌋ : ℤ) : ℚ) ≤ 9 := by
        exact_mod_cast Int.lt_add_one_iff.mp hm10
      rw [hfp]
      unfold apply_psychological_pricing
      rw [if_neg (not_lt.mpr (by linarith :
            (100:ℚ) ≤ ((⌊p / 100⌋ : ℤ) : ℚ) * 100 + 99)),
        if_pos (by linarith : ((⌊p / 100⌋ : ℤ) : ℚ) * 100 + 99 < 1000),
        show (((⌊p / 100⌋ : ℤ) : ℚ) * 100 + 99) / 100 =
          ((⌊p / 100⌋ : ℤ) : ℚ) + 99 / 100 by ring,
        Int.floor_int_add, show ⌊(99/100 : ℚ)⌋ = 0 by norm_num, add_zero]
    · rw [apply_psychological_pricing_eq_999 h2 h]
      norm_num [apply_psychological_pricing]

/-- Witness for the amended C5: idempotence applied at the concrete price
85 (rounded to 89, and 89 is a fixed point). -/
theorem apply_psychological_pricing_idem_below_witness :
    (85:ℚ) < 1100 ∧
    apply_psychological_pricing (apply_psychological_pricing 85) =
      apply_psychological_pricing 85 :=
  ⟨by norm_num, apply_psychological_pricing_idem_below 85 (by norm_num)⟩

/-- Positivity of psychological rounding on positive inputs. -/
lemma apply_psychological_pricing_pos {q : ℚ} (hq : 0 < q) :
    0 < apply_psychological_pricing q := by
  unfold apply_psychological_pricing
  split_ifs with h1 h2 h3
  · have h0 : (0:ℤ) ≤ ⌊q / 10⌋ := Int.floor_nonneg.mpr (by positivity)
    have h0q : (0:ℚ) ≤ ((⌊q / 10⌋ : ℤ) : ℚ) := by exact_mod_cast h0
    linarith
  · have hm1 : (1:ℤ) ≤ ⌊q / 100⌋ := by
      refine Int.le_floor.mpr ?_
      rw [le_div_iff₀ (by norm_num : (0:ℚ) < 100)]
      push_cast
      linarith
    have hc : (1:ℚ) ≤ ((⌊q / 100⌋ : ℤ) : ℚ) := by exact_mod_cast hm1
    linarith
  · have hm10 : (10:ℤ) ≤ ⌊q / 100⌋ := by
      refine Int.le_floor.mpr ?_
      rw [le_div_iff₀ (by norm_num : (0:ℚ) < 100)]
      push_cast
      linarith
    have hc : (10:ℚ) ≤ ((⌊q / 100⌋ : ℤ) : ℚ) := by exact_mod_cast hm10
    linarith
  · have hm10 : (10:ℤ) ≤ ⌊q / 100⌋ := by
      refine Int.le_floor.mpr ?_
      rw [le_div_iff₀ (by norm_num : (0:ℚ) < 100)]
      push_cast
      linarith
    have hmod : ⌊q / 100⌋ % 10 < 10 := Int.emod_lt_of_pos _ (by norm_num)
    have hpos : (1:ℤ) ≤ ⌊q / 100⌋ - ⌊q / 100⌋ % 10 + 4 := by omega
    have hc : (1:ℚ) ≤ ((⌊q / 100⌋ - ⌊q / 100⌋ % 10 + 4 : ℤ) : ℚ) := by
      exact_mod_cast hpos
    linarith

/-- C6: for every positive supplier price and every non-negative
cost-factor configuration, with rounding enabled or disabled, the final
price produced by `calculate_price` is strictly positive. -/
theorem calculate_price_final_price_pos (cf : CostFactors)
    (hpg : 0 ≤ cf.payment_gateway_fee) (hpf : 0 ≤ cf.platform_fee)
    (hpk : 0 ≤ cf.packaging_cost) (hrb : 0 ≤ cf.returns_buffer)
    (hgst : 0 ≤ cf.gst_rate) (sp : ℚ) (hsp : 0 < sp)
    (cat : ProductCategory) (comp : CompetitionLevel) (u psych : Bool) :
    0 < (calculate_price cf sp cat comp u psych).final_price := by
  have hm : (15:ℚ)/100 ≤
      calculate_adjusted_markup (get_base_markup sp) cat comp u :=
    le_max_right _ _
  have hsell : 0 < sp *
      (1 + calculate_adjusted_markup (get_base_markup sp) cat comp u) :=
    mul_pos hsp (by linarith)
  have c1 : 0 ≤ sp *
      (1 + calculate_adjusted_markup (get_base_markup sp) cat comp u) *
      cf.payment_gateway_fee := mul_nonneg hsell.le hpg
  have c2 : 0 ≤ sp *
      (1 + calculate_adjusted_markup (get_base_markup sp) cat comp u) *
      cf.platform_fee := mul_nonneg hsell.le hpf
  have c4 : 0 ≤ sp *
      (1 + calculate_adjusted_markup (get_base_markup sp) cat comp u) *
      cf.returns_buffer := mul_nonneg hsell.le hrb
  have c5 : 0 ≤ sp *
      (1 + calculate_adjusted_markup (get_base_markup sp) cat comp u) *
      cf.gst_rate := mul_nonneg hsell.le hgst
  simp only [calculate_price, calculate_total_costs, List.map, List.sum_cons,
    List.sum_nil]
  cases psych
  · simp only [Bool.false_eq_true, if_false]
    linarith
  · simp only [if_true]
    exact apply_psychological_pricing_pos (by linarith)

/-- Witness for C6: the default configuration and supplier price 150 give
a strictly positive final price. -/
theorem calculate_price_final_price_pos_witness :
    ((0:ℚ) ≤ CostFactors.default.payment_gateway_fee ∧
     (0:ℚ) ≤ CostFactors.default.platform_fee ∧
     (0:ℚ) ≤ CostFactors.default.packaging_cost ∧
     (0:ℚ) ≤ CostFactors.default.returns_buffer ∧
     (0:ℚ) ≤ CostFactors.default.gst_rate ∧ (0:ℚ) < 150) ∧
    0 < (calculate_price CostFactors.default 150 ProductCategory.generic
      CompetitionLevel.medium false true).final_price :=
  ⟨⟨by norm_num [CostFactors.default], by norm_num [CostFactors.default],
    by norm_num [CostFactors.default], by norm_num [CostFactors.default],
    by norm_num [CostFactors.default], by norm_num⟩,
   calculate_price_final_price_pos CostFactors.default
     (by norm_num [CostFactors.default]) (by norm_num [CostFactors.default])
     (by norm_num [CostFactors.default]) (by norm_num [CostFactors.default])
     (by norm_num [CostFactors.default]) 150 (by norm_num)
     ProductCategory.generic CompetitionLevel.medium false true⟩

/-- C8: when every descriptor in the list resolves its category and
competition strings, `bulk_calculate` returns one result per input in the
same order, each equal to `calculate_price` on that descriptor with the
documented defaults (generic category, medium competition, no unique
value). -/
theorem bulk_calculate_spec (cf : CostFactors) (ps : List Product)
    (h : ∀ p ∈ ps,
      (ProductCategory.fromString? (p.category.getD "generic")).isSome ∧
      (CompetitionLevel.fromString? (p.competition.getD "medium")).isSome) :
    bulk_calculate cf ps =
      some (ps.map (fun p =>
        calculate_price cf p.supplier_price
          ((ProductCategory.fromString? (p.category.getD "generic")).getD
            ProductCategory.generic)
          ((CompetitionLevel.fromString? (p.competition.getD "medium")).getD
            CompetitionLevel.medium)
          (p.has_unique_value.getD false) true)) := by
  induction ps with
  | nil => rfl
  | cons p rest ih =>
    obtain ⟨hcat, hcomp⟩ := h p (List.mem_cons_self p rest)
    obtain ⟨c, hc⟩ := Option.isSome_iff_exists.mp hcat
    obtain ⟨m, hm⟩ := Option.isSome_iff_exists.mp hcomp
    have ihr := ih (fun q hq => h q (List.mem_cons_of_mem p hq))
    simp [bulk_calculate, hc, hm, ihr]

/-- Witness for C8: a two-item batch (one all-defaults item, one with
explicit beauty/low/unique fields) is dispatched to the two matching
single-item calls. -/
theorem bulk_calculate_spec_witness :
    (∀ p ∈ [Product.mk 150 none none none,
            Product.mk 800 (some "beauty") (some "low") (some true)],
      (ProductCategory.fromString? (p.category.getD "generic")).isSome ∧
      (CompetitionLevel.fromString? (p.competition.getD "medium")).isSome) ∧
    bulk_calculate CostFactors.default
        [Product.mk 150 none none none,
         Product.mk 800 (some "beauty") (some "low") (some true)] =
      some ([Product.mk 150 none none none,
             Product.mk 800 (some "beauty") (some "low") (some true)].map
        (fun p =>
          calculate_price CostFactors.default p.supplier_price
            ((ProductCategory.fromString? (p.category.getD "generic")).getD
              ProductCategory.generic)
            ((CompetitionLevel.fromString? (p.competition.getD "medium")).getD
              CompetitionLevel.medium)
            (p.has_unique_value.getD false) true)) := by
  have hres : ∀ p ∈ [Product.mk 150 none none none,
      Product.mk 800 (some "beauty") (some "low") (some true)],
      (ProductCategory.fromString? (p.category.getD "generic")).isSome ∧
      (CompetitionLevel.fromString? (p.competition.getD "medium")).isSome := by
    intro p hp
    rcases List.mem_cons.mp hp with rfl | hp
    · simp [ProductCategory.fromString?, CompetitionLevel.fromString?]
    rcases List.mem_cons.mp hp with rfl | hp
    · simp [ProductCategory.fromString?, CompetitionLevel.fromString?]
    simp at hp
  exact ⟨hres, bulk_calculate_spec CostFactors.default _ hres⟩

/-- C9 counterexample: the non-integer supplier price 299.5 is at least
100 yet matches no band — the tier scan comes back empty and the 0.15
fallback is returned. -/
theorem get_base_markup_gap_reachable :
    (100:ℚ) ≤ 599/2 ∧
    BASE_MARKUP_TIERS.find? (tierMatches (599/2)) = none ∧
    get_base_markup (599/2) = 15/100 := by
  refine ⟨by norm_num, ?_, ?_⟩
  · norm_num [BASE_MARKUP_TIERS, tierMatches, List.find?]
  · norm_num [get_base_markup, BASE_MARKUP_TIERS, tierMatches, List.find?]

/-- C9 amended: for every integer supplier price of at least 100 the tier
resolver matches one of the five defined bands, so the 0.15 fallback is
unreachable on integer inputs at or above 100. -/
theorem get_base_markup_int_band (n : ℤ) (h : 100 ≤ n) :
    (∃ t ∈ BASE_MARKUP_TIERS, tierMatches (n:ℚ) t = true) ∧
    (get_base_markup (n:ℚ) = 60/100 ∨ get_base_markup (n:ℚ) = 45/100 ∨
     get_base_markup (n:ℚ) = 35/100 ∨ get_base_markup (n:ℚ) = 25/100 ∨
     get_base_markup (n:ℚ) = 20/100) := by
  have hn : (100:ℚ) ≤ (n:ℚ) := by exact_mod_cast h
  rcases le_or_lt n 299 with h2 | h2
  · have h2q : (n:ℚ) ≤ 299 := by exact_mod_cast h2
    refine ⟨⟨(100, some 299, 60/100), by simp [BASE_MARKUP_TIERS], ?_⟩,
      Or.inl (get_base_markup_band1 hn h2q)⟩
    simp [tierMatches]
    exact ⟨hn, h2q⟩
  · have h3 : (300:ℚ) ≤ (n:ℚ) := by exact_mod_cast h2
    rcases le_or_lt n 699 with h4 | h4
    · have h4q : (n:ℚ) ≤ 699 := by exact_mod_cast h4
      refine ⟨⟨(300, some 699, 45/100), by simp [BASE_MARKUP_TIERS], ?_⟩,
        Or.inr (Or.inl (get_base_markup_band2 h3 h4q))⟩
      simp [tierMatches]
      exact ⟨h3, h4q⟩
    · have h5 : (700:ℚ) ≤ (n:ℚ) := by exact_mod_cast h4
      rcases le_or_lt n 1199 with h6 | h6
      · have h6q : (n:ℚ) ≤ 1199 := by exact_mod_cast h6
        refine ⟨⟨(700, some 1199, 35/100), by simp [BASE_MARKUP_TIERS], ?_⟩,
          Or.inr (Or.inr (Or.inl (get_base_markup_band3 h5 h6q)))⟩
        simp [tierMatches]
        exact ⟨h5, h6q⟩
      · have h7 : (1200:ℚ) ≤ (n:ℚ) := by exact_mod_cast h6
        rcases le_or_lt n 2000 with h8 | h8
        · have h8q : (n:ℚ) ≤ 2000 := by exact_mod_cast h8
          refine ⟨⟨(1200, some 2000, 25/100), by simp [BASE_MARKUP_TIERS], ?_⟩,
            Or.inr (Or.inr (Or.inr (Or.inl (get_base_markup_band4 h7 h8q))))⟩
          simp [tierMatches]
          exact ⟨h7, h8q⟩
        · have h9 : (2001:ℚ) ≤ (n:ℚ) := by exact_mod_cast h8
          refine ⟨⟨(2001, none, 20/100), by simp [BASE_MARKUP_TIERS], ?_⟩,
            Or.inr (Or.inr (Or.inr (Or.inr (get_base_markup_band5 h9))))⟩
          simp [tierMatches]
          exact h9

/-- Witness for the amended C9: the integer price 150 matches a band. -/
theorem get_base_markup_int_band_witness :
    (100:ℤ) ≤ 150 ∧
    ((∃ t ∈ BASE_MARKUP_TIERS, tierMatches ((150:ℤ):ℚ) t = true) ∧
     (get_base_markup ((150:ℤ):ℚ) = 60/100 ∨
      get_base_markup ((150:ℤ):ℚ) = 45/100 ∨
      get_base_markup ((150:ℤ):ℚ) = 35/100 ∨
      get_base_markup ((150:ℤ):ℚ) = 25/100 ∨
      get_base_markup ((150:ℤ):ℚ) = 20/100)) :=
  ⟨by norm_num, get_base_markup_int_band 150 (by norm_num)⟩

/-- C10: psychological rounding can move a price strictly below the input
(it is not inflationary): 1100 rounds down to 1099, every raw price in
`[1000, 1100)` collapses to 999, and with rounding enabled the default
pipeline at supplier price 550 produces a final price strictly below the
selling price plus the additional costs and below 1000. -/
theorem apply_psychological_pricing_can_decrease :
    (∃ p : ℚ, apply_psychological_pricing p < p) ∧
    (∀ p : ℚ, 1000 ≤ p → p < 1100 → apply_psychological_pricing p = 999) ∧
    ((calculate_price CostFactors.default 550 ProductCategory.generic
        CompetitionLevel.medium false true).final_price <
      (calculate_price CostFactors.default 550 ProductCategory.generic
        CompetitionLevel.medium false true).selling_price +
      ((calculate_price CostFactors.default 550 ProductCategory.generic
        CompetitionLevel.medium false true).cost_breakdown.map Prod.snd).sum ∧
     (calculate_price CostFactors.default 550 ProductCategory.generic
        CompetitionLevel.medium false true).final_price < 1000) := by
  refine ⟨⟨1100, ?_⟩, fun p h1 h2 => apply_psychological_pricing_eq_999 h1 h2,
    ?_, ?_⟩
  · norm_num [apply_psychological_pricing]
  · norm_num [calculate_price, CostFactors.default, calculate_adjusted_markup,
      get_base_markup, BASE_MARKUP_TIERS, tierMatches, List.find?,
      calculate_total_costs, CATEGORY_ADJUSTMENTS, COMPETITION_ADJUSTMENTS,
      apply_psychological_pricing]
  · norm_num [calculate_price, CostFactors.default, calculate_adjusted_markup,
      get_base_markup, BASE_MARKUP_TIERS, tierMatches, List.find?,
      calculate_total_costs, CATEGORY_ADJUSTMENTS, COMPETITION_ADJUSTMENTS,
      apply_psychological_pricing]

/-- Witness for C10: the collapse to 999 applied at the concrete raw
price 1050. -/
theorem apply_psychological_pricing_can_decrease_witness :
    (1000:ℚ) ≤ 1050 ∧ (1050:ℚ) < 1100 ∧
    apply_psychological_pricing 1050 = 999 :=
  ⟨by norm_num, by norm_num,
   apply_psychological_pricing_can_decrease.2.1 1050 (by norm_num) (by norm_num)⟩

end ViralDeals
